import Mathlib

/-!
Verification of the raycast-openai-server repository
(`src/start-openai-server.tsx`) against its natural-language
specification.

JavaScript strings are modelled as `List Char` (`Str`); every definition
below is a direct translation of the corresponding function in the source
file.  Machine-level concerns (UTF-16 vs. codepoints) do not arise: all
template literals in the source are ASCII and contents are treated as
abstract character sequences.
-/

/-- JavaScript strings, modelled as sequences of characters. -/
abbrev Str := List Char

/-- Character data of a Lean string literal, used to embed the source's string
literals. -/
def chars (s : String) : Str := s.data

/-- A chat message as received on the wire.  The TypeScript interface restricts
`role` to three literals, but that annotation is erased at runtime and the
formatters compare the role string directly, so the embedding keeps `role` as
an arbitrary string. -/
structure Message where
  role : Str
  content : Str
deriving DecidableEq, Repr

/-- Embedding of JavaScript `hay.includes(needle)` (substring containment). -/
def strIncl (hay needle : Str) : Bool :=
  match hay with
  | [] => needle.isEmpty
  | c :: t => needle.isPrefixOf (c :: t) || strIncl t needle

/-- Embedding of JavaScript `toLowerCase` (the identifiers involved are
ASCII, where `Char.toLower` agrees with it). -/
def lowerS (s : Str) : Str := s.map Char.toLower

/-! ### Prompt formatters (source lines 79–207) -/

/-- Role collapsing used by `formatLlama3` (source line 83). -/
def llama3Role (role : Str) : Str :=
  if role = chars "assistant" then chars "assistant"
  else if role = chars "system" then chars "system"
  else chars "user"

/-- One message block appended by the `forEach` in `formatLlama3`
(source line 84). -/
def llama3Block (m : Message) : Str :=
  chars "<|start_header_id|>" ++ llama3Role m.role ++ chars "<|end_header_id|>\n\n"
    ++ m.content ++ chars "<|eot_id|>"

/-- `formatLlama3` (source lines 79–89). -/
def formatLlama3 (messages : List Message) : Str :=
  (messages.foldl (fun p m => p ++ llama3Block m) (chars "<|begin_of_text|>"))
    ++ chars "<|start_header_id|>assistant<|end_header_id|>\n\n"

/-- One loop iteration of `formatLlama2` over the non-system messages
(source lines 106–112). -/
def llama2Seg (m : Message) : Str :=
  if m.role = chars "user" then chars "[INST] " ++ m.content ++ chars " [/INST]"
  else if m.role = chars "assistant" then chars " " ++ m.content ++ chars " </s><s>"
  else []

/-- The leading system block of `formatLlama2` (source line 101). -/
def sysBlock (c : Str) : Str :=
  chars "[INST] <<SYS>>\n" ++ c ++ chars "\n<</SYS>>\n\n"

/-- Trailing `<s>` removal of `formatLlama2` (source lines 115–117):
`slice(0, -3)` drops the last three characters. -/
def llama2Trim (p : Str) : Str :=
  if chars "<s>" <:+ p then p.take (p.length - 3) else p

/-- The message loop of `formatLlama2` / `formatMistral`: `forEach` appending
to the accumulated prompt. -/
def promptLoop (seg : Message → Str) (p : Str) (msgs : List Message) : Str :=
  msgs.foldl (fun acc m => acc ++ seg m) p

/-- `formatLlama2` (source lines 95–120).  When the first message has role
`system` it is rendered once as the `<<SYS>>` block and excluded (`slice 1`)
from the loop. -/
def formatLlama2 (messages : List Message) : Str :=
  match messages with
  | m :: rest =>
    if m.role = chars "system" then
      llama2Trim (promptLoop llama2Seg (chars "<s>" ++ sysBlock m.content) rest)
    else
      llama2Trim (promptLoop llama2Seg (chars "<s>") (m :: rest))
  | [] => llama2Trim (promptLoop llama2Seg (chars "<s>") [])

/-- One loop iteration of `formatMistral` (source lines 129–135). -/
def mistralSeg (m : Message) : Str :=
  if m.role = chars "user" then chars "[INST] " ++ m.content ++ chars " [/INST]"
  else if m.role = chars "assistant" then m.content ++ chars "</s>"
  else []

/-- `formatMistral` (source lines 126–138). -/
def formatMistral (messages : List Message) : Str :=
  promptLoop mistralSeg (chars "<s>") messages

/-- One loop iteration of `formatClaude` (source lines 147–156). -/
def claudeSeg (m : Message) : Str :=
  if m.role = chars "system" then m.content ++ chars "\n\n"
  else if m.role = chars "user" then chars "User: " ++ m.content ++ chars "\n\n"
  else if m.role = chars "assistant" then chars "Assistant: " ++ m.content ++ chars "\n\n"
  else []

/-- `formatClaude` (source lines 144–160). -/
def formatClaude (messages : List Message) : Str :=
  promptLoop claudeSeg [] messages ++ chars "Assistant:"

/-- One loop iteration of `formatGrok` (source lines 169–177). -/
def grokSeg (m : Message) : Str :=
  if m.role = chars "system" then chars "System Instruction:\n" ++ m.content ++ chars "\n\n"
  else if m.role = chars "user" then chars "User:\n" ++ m.content ++ chars "\n\n"
  else if m.role = chars "assistant" then chars "Assistant:\n" ++ m.content ++ chars "\n\n"
  else []

/-- `formatGrok` (source lines 166–181). -/
def formatGrok (messages : List Message) : Str :=
  promptLoop grokSeg [] messages ++ chars "Assistant:\n"

/-- The per-message rendering of `formatSimpleChat` (source lines 189–195). -/
def simpleChatLine (isSystemSupported : Bool) (m : Message) : Str :=
  if !isSystemSupported && m.role = chars "system" then
    chars "(System Instruction: " ++ m.content ++ chars ")"
  else
    m.role ++ chars ": " ++ m.content

/-- `formatSimpleChat` (source lines 187–197): map then `join('\n\n')`. -/
def formatSimpleChat (messages : List Message) (isSystemSupported : Bool) : Str :=
  List.intercalate (chars "\n\n") (messages.map (simpleChatLine isSystemSupported))

/-- `formatDefault` (source lines 203–207). -/
def formatDefault (messages : List Message) : Str :=
  List.intercalate (chars "\n\n")
    (messages.map (fun m => chars "<" ++ m.role ++ chars ">: " ++ m.content))

/-! ### Family dispatch (source lines 21–69) -/

/-- The Format Families of the specification.  `simpleChat` carries the
system-role support flag passed to `formatSimpleChat`. -/
inductive Family where
  | llama3
  | llama2
  | mistral
  | claude
  | grok
  | simpleChat (sysSupported : Bool)
  | defaultFamily
deriving DecidableEq, Repr

/-- The classification cascade of `formatPromptForModel`, applied to the
already-lowercased identifier (`modelIdLower`, source lines 23–68). -/
def classifyLower (l : Str) : Family :=
  if strIncl l (chars "llama3.1") || strIncl l (chars "llama-4") then .llama3
  else if strIncl l (chars "llama3") || strIncl l (chars "llama-3.3") then .llama3
  else if strIncl l (chars "llama2") || strIncl l (chars "codellama") then .llama2
  else if strIncl l (chars "mistral") || strIncl l (chars "nemo")
      || strIncl l (chars "codestral") then .mistral
  else if strIncl l (chars "anthropic") || strIncl l (chars "claude") then .claude
  else if strIncl l (chars "grok") then .grok
  else if strIncl l (chars "deepseek") then .llama2
  else if strIncl l (chars "openai") || strIncl l (chars "google")
      || strIncl l (chars "gemini") then .simpleChat (strIncl l (chars "openai"))
  else .defaultFamily

/-- Family selected by `formatPromptForModel` for a model identifier. -/
def classifyFamily (modelId : Str) : Family :=
  classifyLower (lowerS modelId)

/-- The formatter each family dispatches to. -/
def applyFamily (f : Family) (msgs : List Message) : Str :=
  match f with
  | .llama3 => formatLlama3 msgs
  | .llama2 => formatLlama2 msgs
  | .mistral => formatMistral msgs
  | .claude => formatClaude msgs
  | .grok => formatGrok msgs
  | .simpleChat b => formatSimpleChat msgs b
  | .defaultFamily => formatDefault msgs

/-- The dispatch body of `formatPromptForModel` on the lowercased identifier
(source lines 26–68), returning the formatted prompt directly. -/
def dispatchLower (msgs : List Message) (l : Str) : Str :=
  if strIncl l (chars "llama3.1") || strIncl l (chars "llama-4") then formatLlama3 msgs
  else if strIncl l (chars "llama3") || strIncl l (chars "llama-3.3") then formatLlama3 msgs
  else if strIncl l (chars "llama2") || strIncl l (chars "codellama") then formatLlama2 msgs
  else if strIncl l (chars "mistral") || strIncl l (chars "nemo")
      || strIncl l (chars "codestral") then formatMistral msgs
  else if strIncl l (chars "anthropic") || strIncl l (chars "claude") then formatClaude msgs
  else if strIncl l (chars "grok") then formatGrok msgs
  else if strIncl l (chars "deepseek") then formatLlama2 msgs
  else if strIncl l (chars "openai") || strIncl l (chars "google")
      || strIncl l (chars "gemini") then formatSimpleChat msgs (strIncl l (chars "openai"))
  else formatDefault msgs

/-- `formatPromptForModel` (source lines 21–69). -/
def formatPromptForModel (messages : List Message) (modelId : Str) : Str :=
  dispatchLower messages (lowerS modelId)

theorem dispatch_classify (msgs : List Message) (modelId : Str) :
    formatPromptForModel msgs modelId = applyFamily (classifyFamily modelId) msgs := by
  unfold formatPromptForModel dispatchLower classifyFamily classifyLower applyFamily
  split_ifs <;> rfl

/-! ### Response envelopes and SSE framing (source lines 279–331) -/

/-- JSON values as produced by the handler (`JSON.stringify` preserves the
insertion order of object fields, so fields are an ordered association
list). -/
inductive Json where
  | str (s : Str)
  | num (n : Nat)
  | obj (fields : List (Str × Json))
  | arr (elems : List Json)

/-- `JSON.stringify` escaping for one character (the cases that can occur in
the handler's payloads). -/
def escChar (c : Char) : Str :=
  if c = '"' then ['\\', '"']
  else if c = '\\' then ['\\', '\\']
  else if c = '\n' then ['\\', 'n']
  else if c = '\r' then ['\\', 'r']
  else if c = '\t' then ['\\', 't']
  else [c]

/-- `JSON.stringify` escaping of a string body. -/
def escStr (s : Str) : Str := (s.map escChar).flatten

mutual

/-- `JSON.stringify` (restricted to the value shapes the handler emits). -/
def jsonEncode : Json → Str
  | .str s => '"' :: (escStr s ++ ['"'])
  | .num n => (Nat.repr n).data
  | .obj fs => '\x7b' :: (encodeFields fs ++ ['\x7d'])
  | .arr es => '[' :: (encodeElems es ++ [']'])

def encodeFields : List (Str × Json) → Str
  | [] => []
  | [(k, v)] => ('"' :: (escStr k ++ ['"', ':'])) ++ jsonEncode v
  | (k, v) :: f :: t =>
    ('"' :: (escStr k ++ ['"', ':'])) ++ jsonEncode v ++ ',' :: encodeFields (f :: t)

def encodeElems : List Json → Str
  | [] => []
  | [e] => jsonEncode e
  | e :: f :: t => jsonEncode e ++ ',' :: encodeElems (f :: t)

end

/-- Field lookup in a JSON object (first binding wins, as in JavaScript). -/
def jLookup : List (Str × Json) → Str → Option Json
  | [], _ => none
  | (k2, v) :: t, k => if k2 = k then some v else jLookup t k

/-- `j[k]` for an object value. -/
def jGet (j : Json) (k : Str) : Option Json :=
  match j with
  | .obj fs => jLookup fs k
  | _ => none

/-- `j[n]` for an array value. -/
def jAt (j : Json) (n : Nat) : Option Json :=
  match j with
  | .arr es => es[n]?
  | _ => none

/-- The ordered field names of a JSON object. -/
def jKeys (j : Json) : List Str :=
  match j with
  | .obj fs => fs.map (fun p => p.1)
  | _ => []

/-- `choices[0]` of an envelope. -/
def choice0 (j : Json) : Option Json :=
  (jGet j (chars "choices")).bind (fun a => jAt a 0)

/-- The streaming delta chunk written for one `data` event
(source lines 288–294), with its exact field order. -/
def deltaChunk (dataStr : Str) (model : Str) (created : Nat) : Json :=
  .obj [(chars "id", .str (chars "chatcmpl-xyz")),
        (chars "object", .str (chars "chat.completion")),
        (chars "model", .str model),
        (chars "created", .num created),
        (chars "choices",
          .arr [.obj [(chars "delta", .obj [(chars "content", .str dataStr)])]])]

/-- The terminal streaming chunk written on successful completion
(source lines 298–305): note `finish_reason` is a top-level field,
a sibling of `choices`. -/
def termChunk (model : Str) (created : Nat) : Json :=
  .obj [(chars "id", .str (chars "chatcmpl-xyz")),
        (chars "object", .str (chars "chat.completion")),
        (chars "created", .num created),
        (chars "model", .str model),
        (chars "choices",
          .arr [.obj [(chars "delta", .obj [(chars "content", .str [])])]]),
        (chars "finish_reason", .str (chars "stop"))]

/-- The non-streaming response body (source lines 315–329): `finish_reason`
sits inside `choices[0]`, next to `index` and the assistant `message`. -/
def responseBody (result : Str) (model : Str) (created : Nat) : Json :=
  .obj [(chars "id", .str (chars "chatcmpl-xyz")),
        (chars "object", .str (chars "chat.completion")),
        (chars "created", .num created),
        (chars "model", .str model),
        (chars "choices",
          .arr [.obj [(chars "index", .num 0),
                      (chars "message",
                        .obj [(chars "role", .str (chars "assistant")),
                              (chars "content", .str result)]),
                      (chars "finish_reason", .str (chars "stop"))]]),
        (chars "usage", .obj [])]

/-- One SSE frame: `"data: " + JSON.stringify(j) + "\n\n"`. -/
def sseData (j : Json) : Str := chars "data: " ++ jsonEncode j ++ chars "\n\n"

/-- The sequence of SSE frames written on the streaming path when inference
succeeds: one delta frame per `data` event (source lines 287–295, in event
order), then — from the `then` callback (source lines 297–307) — the
terminal chunk frame and the literal `[DONE]` frame, after which the
response is closed. -/
def streamWrites (frags : List Str) (model : Str) (created : Nat) : List Str :=
  (frags.foldl (fun acc d => acc ++ [sseData (deltaChunk d model created)]) [])
    ++ [sseData (termChunk model created), chars "data: [DONE]\n\n"]

/-! ### The completion handler (source lines 250–337) -/

/-- The state of the `messages` field after `JSON.parse`: absent (or another
falsy value), present but not an array, or an array of messages.  The check
on source line 257 (`!requestData.messages || !Array.isArray(...)`) rejects
the first two and lets every array — including the empty one — through. -/
inductive MessagesField where
  | missing
  | notArray
  | array (msgs : List Message)

/-- The parsed request body fields the handler reads. `streamFlag` is the
result of `requestData.stream === true` (source line 272). -/
structure RequestData where
  model : Option Str
  messages : MessagesField
  streamFlag : Bool

/-- Outcome of `JSON.parse(body)` (source line 254): a thrown syntax error
(carrying `err.message`) or a parsed body. -/
inductive ParsedBody where
  | malformed (errMsg : Str)
  | ok (d : RequestData)

/-- What the handler writes back. -/
inductive ChatResponse where
  | errJson (msg : Str)
  | json (j : Json)
  | sse (frames : List Str)

/-- Observable trace of one request through the completion handler:
which message lists the Prompt Formatter was invoked on, which prompts
were sent to the inference capability (`AI.ask`), and the HTTP response. -/
structure HandlerTrace where
  formatterCalls : List (List Message × Str)
  inferenceCalls : List Str
  status : Nat
  response : ChatResponse

/-- `requestData.model || "OpenAI_GPT4o-mini"` (source line 256); JavaScript
`||` also replaces an empty (falsy) string by the default. -/
def modelOrDefault (m : Option Str) : Str :=
  match m with
  | some s => if s = [] then chars "OpenAI_GPT4o-mini" else s
  | none => chars "OpenAI_GPT4o-mini"

/-- The `/v1/chat/completions` request handler (source lines 252–337),
parameterised by the inference capability's observable behaviour on the
success path: the incremental fragments (`frags`) and the final result
(`result`).  A thrown `JSON.parse` error is caught by the surrounding
`try/catch` (lines 333–336), which answers 500; missing/non-array
`messages` answers 400 (lines 257–261); an empty formatted prompt answers
400 (lines 265–269) — in each of these cases `AI.ask` is never reached. -/
def handleChatBody (p : ParsedBody) (frags : List Str) (result : Str)
    (created : Nat) : HandlerTrace :=
  match p with
  | .malformed e => ⟨[], [], 500, .errJson e⟩
  | .ok d =>
    let model := modelOrDefault d.model
    match d.messages with
    | .missing =>
      ⟨[], [], 400, .errJson (chars "Missing or invalid 'messages' in request body")⟩
    | .notArray =>
      ⟨[], [], 400, .errJson (chars "Missing or invalid 'messages' in request body")⟩
    | .array msgs =>
      let prompt := formatPromptForModel msgs model
      if prompt = [] then
        ⟨[(msgs, model)], [], 400, .errJson (chars "Missing 'content' in the last message")⟩
      else if d.streamFlag then
        ⟨[(msgs, model)], [prompt], 200, .sse (streamWrites frags model created)⟩
      else
        ⟨[(msgs, model)], [prompt], 200, .json (responseBody result model created)⟩

/-! ### Shared lemmas -/

theorem foldl_append_flatten {α β : Type} (f : α → List β) (l : List α) (p : List β) :
    l.foldl (fun acc m => acc ++ f m) p = p ++ (l.map f).flatten := by
  induction l generalizing p with
  | nil => simp
  | cons h t ih => simp [List.foldl_cons, ih, List.append_assoc]

theorem flatten_map_singleton {α β : Type} (g : α → β) (l : List α) :
    (l.map (fun d => [g d])).flatten = l.map g := by
  induction l with
  | nil => rfl
  | cons h t ih => simp [ih]

theorem promptLoop_eq (seg : Message → Str) (p : Str) (msgs : List Message) :
    promptLoop seg p msgs = p ++ (msgs.map seg).flatten :=
  foldl_append_flatten seg msgs p

/-! ### Claim C6 — Llama3 formatter shape -/

/-- Role collapse as the specification words it: system stays system,
assistant stays assistant, anything else becomes user. -/
def specCollapse (r : Str) : Str :=
  if r = chars "system" then chars "system"
  else if r = chars "assistant" then chars "assistant"
  else chars "user"

/-- Per-message header block as the specification describes it. -/
def llama3SpecBlock (m : Message) : Str :=
  chars "<|start_header_id|>" ++ specCollapse m.role ++ chars "<|end_header_id|>\n\n"
    ++ m.content ++ chars "<|eot_id|>"

/-- The Llama3 output shape claimed by the specification: begin-of-text
marker, one role-tagged block per message, final unterminated assistant
header. -/
def llama3Spec (msgs : List Message) : Str :=
  chars "<|begin_of_text|>" ++ (msgs.map llama3SpecBlock).flatten
    ++ chars "<|start_header_id|>assistant<|end_header_id|>\n\n"

theorem llama3Role_eq_specCollapse (r : Str) : llama3Role r = specCollapse r := by
  by_cases h1 : r = chars "assistant"
  · subst h1; decide
  · by_cases h2 : r = chars "system"
    · subst h2; decide
    · simp [llama3Role, specCollapse, h1, h2]

/-- C6: for every message sequence the Llama3 formatter output equals a
begin-of-text marker, then for each message in order a header block tagged
with the role collapsed into system/user/assistant (any other role mapping
to user) wrapping the content with an end-of-turn marker, then a final
unterminated assistant header marker. -/
theorem c6_llama3_shape (msgs : List Message) : formatLlama3 msgs = llama3Spec msgs := by
  unfold formatLlama3 llama3Spec
  rw [foldl_append_flatten]
  have hblock : msgs.map llama3Block = msgs.map llama3SpecBlock := by
    apply List.map_congr_left
    intro m _
    unfold llama3Block llama3SpecBlock
    rw [llama3Role_eq_specCollapse]
  rw [hblock, List.append_assoc]

/-! ### Claim C7 — Mistral formatter -/

theorem mistralSeg_user (m : Message) (h : m.role = chars "user") :
    mistralSeg m = chars "[INST] " ++ m.content ++ chars " [/INST]" := by
  unfold mistralSeg; rw [h, if_pos rfl]

theorem mistralSeg_assistant (m : Message) (h : m.role = chars "assistant") :
    mistralSeg m = m.content ++ chars "</s>" := by
  unfold mistralSeg; rw [h, if_neg (by decide), if_pos rfl]

theorem mistralSeg_system (m : Message) (h : m.role = chars "system") :
    mistralSeg m = [] := by
  unfold mistralSeg; rw [h, if_neg (by decide), if_neg (by decide)]

/-- C7: the Mistral formatter prepends the sequence-start marker and renders
each message by role — user content wrapped in instruction brackets,
assistant content raw followed by a sequence-end marker, system messages
contributing nothing — so a sequence of only system messages yields exactly
the sequence-start marker. -/
theorem c7_mistral (msgs : List Message) :
    formatMistral msgs = chars "<s>" ++ (msgs.map mistralSeg).flatten
    ∧ (∀ m : Message, m.role = chars "user" →
        mistralSeg m = chars "[INST] " ++ m.content ++ chars " [/INST]")
    ∧ (∀ m : Message, m.role = chars "assistant" →
        mistralSeg m = m.content ++ chars "</s>")
    ∧ (∀ m : Message, m.role = chars "system" → mistralSeg m = [])
    ∧ ((∀ m ∈ msgs, m.role = chars "system") → formatMistral msgs = chars "<s>") := by
  refine ⟨promptLoop_eq _ _ _, mistralSeg_user, mistralSeg_assistant, mistralSeg_system, ?_⟩
  intro hall
  show promptLoop mistralSeg (chars "<s>") msgs = chars "<s>"
  rw [promptLoop_eq]
  have hmap : msgs.map mistralSeg = msgs.map (fun _ => ([] : Str)) :=
    List.map_congr_left (fun m hm => mistralSeg_system m (hall m hm))
  rw [hmap]
  have hnil : (msgs.map (fun _ => ([] : Str))).flatten = [] := by
    induction msgs with
    | nil => rfl
    | cons h t ih => simp [ih]
  rw [hnil, List.append_nil]

/-- Concrete instance for C7: a sequence of two system messages renders to
exactly the sequence-start marker, and the per-role rendering equations hold
at concrete messages. -/
theorem c7_mistral_witness :
    formatMistral [⟨chars "system", chars "a"⟩, ⟨chars "system", chars "b"⟩] = chars "<s>"
    ∧ mistralSeg ⟨chars "user", chars "hi"⟩ = chars "[INST] hi [/INST]" := by
  constructor
  · exact (c7_mistral [⟨chars "system", chars "a"⟩, ⟨chars "system", chars "b"⟩]).2.2.2.2
      (by intro m hm; simp at hm; rcases hm with h | h <;> simp [h])
  · exact (c7_mistral []).2.1 ⟨chars "user", chars "hi"⟩ rfl

/-! ### Claim C3 — streaming terminal frames -/

/-- C3: for a streaming request whose inference completes successfully the
written SSE frames are exactly one delta frame per fragment followed by a
terminal chunk whose `choices[0].delta.content` is the empty string and whose
finish reason is "stop", and then the literal `data: [DONE]\n\n` frame, which
is the last frame written (nothing follows it). -/
theorem c3_stream_final_frames (frags : List Str) (model : Str) (created : Nat) :
    streamWrites frags model created
      = (frags.map (fun d => sseData (deltaChunk d model created)))
          ++ [sseData (termChunk model created), chars "data: [DONE]\n\n"]
    ∧ (streamWrites frags model created).getLast? = some (chars "data: [DONE]\n\n")
    ∧ (streamWrites frags model created).drop
        ((streamWrites frags model created).length - 2)
        = [sseData (termChunk model created), chars "data: [DONE]\n\n"]
    ∧ ((choice0 (termChunk model created)).bind
        (fun c => (jGet c (chars "delta")).bind (fun d => jGet d (chars "content"))))
        = some (.str [])
    ∧ jGet (termChunk model created) (chars "finish_reason")
        = some (.str (chars "stop")) := by
  have heq : streamWrites frags model created
      = (frags.map (fun d => sseData (deltaChunk d model created)))
          ++ [sseData (termChunk model created), chars "data: [DONE]\n\n"] := by
    unfold streamWrites
    rw [foldl_append_flatten (fun d => [sseData (deltaChunk d model created)]) frags []]
    rw [flatten_map_singleton]
    rfl
  refine ⟨heq, ?_, ?_, rfl, rfl⟩
  · rw [heq]
    have : (frags.map (fun d => sseData (deltaChunk d model created)))
          ++ [sseData (termChunk model created), chars "data: [DONE]\n\n"]
        = ((frags.map (fun d => sseData (deltaChunk d model created)))
          ++ [sseData (termChunk model created)]) ++ [chars "data: [DONE]\n\n"] := by
      rw [List.append_assoc]; rfl
    rw [this, List.getLast?_concat]
  · rw [heq]
    have hlen : ((frags.map (fun d => sseData (deltaChunk d model created)))
          ++ [sseData (termChunk model created), chars "data: [DONE]\n\n"]).length
        = (frags.map (fun d => sseData (deltaChunk d model created))).length + 2 := by
      rw [List.length_append]; rfl
    rw [hlen, Nat.add_sub_cancel]
    exact List.drop_left _ _

/-! ### Claim C9 — placement of finish_reason -/

/-- C9: in the streaming terminal chunk `finish_reason` is a top-level field
(a sibling of `choices`) and `choices[0]` holds only a `delta`; in the
non-streaming response `finish_reason` is absent at top level and sits inside
`choices[0]` next to the `index` field and the assistant `message`. -/
theorem c9_finish_reason_placement (model result : Str) (created : Nat) :
    jGet (termChunk model created) (chars "finish_reason") = some (.str (chars "stop"))
    ∧ (choice0 (termChunk model created)).map jKeys = some [chars "delta"]
    ∧ ((choice0 (termChunk model created)).bind
        (fun c => jGet c (chars "finish_reason"))) = none
    ∧ jGet (responseBody result model created) (chars "finish_reason") = none
    ∧ (choice0 (responseBody result model created)).map jKeys
        = some [chars "index", chars "message", chars "finish_reason"]
    ∧ ((choice0 (responseBody result model created)).bind
        (fun c => jGet c (chars "finish_reason"))) = some (.str (chars "stop"))
    ∧ ((choice0 (responseBody result model created)).bind
        (fun c => (jGet c (chars "message")).bind
          (fun msg => jGet msg (chars "role")))) = some (.str (chars "assistant")) := by
  exact ⟨rfl, rfl, rfl, rfl, rfl, rfl, rfl⟩

/-! ### Claim C10 — constant id and object tag -/

/-- C10: every envelope the handler emits — each streaming delta chunk, the
streaming terminal chunk, and the non-streaming completion response — carries
the constant id "chatcmpl-xyz" and the constant object tag "chat.completion";
in particular ids are shared across chunks and requests rather than unique. -/
theorem c10_constant_id_object (d model result : Str) (created created2 : Nat) :
    jGet (deltaChunk d model created) (chars "id") = some (.str (chars "chatcmpl-xyz"))
    ∧ jGet (deltaChunk d model created) (chars "object")
        = some (.str (chars "chat.completion"))
    ∧ jGet (termChunk model created) (chars "id") = some (.str (chars "chatcmpl-xyz"))
    ∧ jGet (termChunk model created) (chars "object")
        = some (.str (chars "chat.completion"))
    ∧ jGet (responseBody result model created) (chars "id")
        = some (.str (chars "chatcmpl-xyz"))
    ∧ jGet (responseBody result model created) (chars "object")
        = some (.str (chars "chat.completion"))
    ∧ jGet (deltaChunk d model created) (chars "id")
        = jGet (responseBody result model created2) (chars "id") := by
  exact ⟨rfl, rfl, rfl, rfl, rfl, rfl, rfl⟩

/-! ### Claim C4 — case-insensitive first-match classification -/

/-- Family tags without the SimpleChat support flag, for the ordered
rule-table reading of the classification cascade. -/
inductive FamilyTag where
  | llama3
  | llama2
  | mistral
  | claude
  | grok
  | simpleChat
  | dflt
deriving DecidableEq, Repr

/-- Forget the SimpleChat support flag. -/
def tagOf : Family → FamilyTag
  | .llama3 => .llama3
  | .llama2 => .llama2
  | .mistral => .mistral
  | .claude => .claude
  | .grok => .grok
  | .simpleChat _ => .simpleChat
  | .defaultFamily => .dflt

/-- The fixed priority-ordered rule table of spec §4.1. -/
def familyRules : List (List Str × FamilyTag) :=
  [([chars "llama3.1", chars "llama-4"], .llama3),
   ([chars "llama3", chars "llama-3.3"], .llama3),
   ([chars "llama2", chars "codellama"], .llama2),
   ([chars "mistral", chars "nemo", chars "codestral"], .mistral),
   ([chars "anthropic", chars "claude"], .claude),
   ([chars "grok"], .grok),
   ([chars "deepseek"], .llama2),
   ([chars "openai", chars "google", chars "gemini"], .simpleChat)]

/-- A rule matches when any of its patterns is a substring. -/
def matchesAny (l : Str) (pats : List Str) : Bool :=
  pats.any (fun p => strIncl l p)

/-- First-match-wins evaluation of an ordered rule table; no rule matching
selects the Default family. -/
def firstMatchTag : List (List Str × FamilyTag) → Str → FamilyTag
  | [], _ => .dflt
  | (pats, t) :: rest, l => if matchesAny l pats then t else firstMatchTag rest l

/-- C4: family classification is evaluated on the lowercased identifier, so
identifiers equal up to letter case classify identically; the cascade equals
first-match-wins evaluation of the fixed priority-ordered rule table of
§4.1; and the concrete pairs from the spec classify identically. -/
theorem c4_classification :
    (∀ m1 m2 : Str, lowerS m1 = lowerS m2 → classifyFamily m1 = classifyFamily m2)
    ∧ (∀ m : Str, tagOf (classifyFamily m) = firstMatchTag familyRules (lowerS m))
    ∧ classifyFamily (chars "Meta-Llama3.1-70B") = classifyFamily (chars "llama3.1-instruct")
    ∧ classifyFamily (chars "Meta-Llama3.1-70B") = .llama3
    ∧ classifyFamily (chars "llama2") = classifyFamily (chars "codellama-13b")
    ∧ classifyFamily (chars "llama2") = .llama2 := by
  refine ⟨?_, ?_, by decide, by decide, by decide, by decide⟩
  · intro m1 m2 h
    unfold classifyFamily
    rw [h]
  · intro m
    simp only [classifyFamily, classifyLower, familyRules, firstMatchTag, matchesAny,
      List.any_cons, List.any_nil, Bool.or_false, ← Bool.or_assoc]
    split_ifs <;> rfl

/-- Concrete instance for C4: two identifiers differing only in letter case
classify identically. -/
theorem c4_classification_witness :
    classifyFamily (chars "CodeLlama-7B") = classifyFamily (chars "codellama-7b") :=
  c4_classification.1 (chars "CodeLlama-7B") (chars "codellama-7b") (by decide)

/-! ### Claim C8 — SimpleChat flag and rendering -/

/-- The flag-false SimpleChat rendering as the specification words it:
a system message becomes "(System Instruction: content)" with no role
tag, every other message becomes "role: content". -/
def simpleChatSpecLine (m : Message) : Str :=
  if m.role = chars "system" then chars "(System Instruction: " ++ m.content ++ chars ")"
  else m.role ++ chars ": " ++ m.content

/-- C8: whenever the classification cascade selects the SimpleChat family,
the system-role support flag equals the (case-insensitive) test for the
substring "openai"; the dispatched prompt is `formatSimpleChat` with that
flag; and with the flag false each system message renders as
"(System Instruction: content)" with no role tag while every other message
renders as "role: content", the lines joined by blank lines. -/
theorem c8_simplechat (modelId : Str) (b : Bool)
    (h : classifyFamily modelId = .simpleChat b) :
    b = strIncl (lowerS modelId) (chars "openai")
    ∧ (∀ msgs : List Message,
        formatPromptForModel msgs modelId = formatSimpleChat msgs b)
    ∧ (∀ msgs : List Message,
        formatSimpleChat msgs false
          = List.intercalate (chars "\n\n") (msgs.map simpleChatSpecLine)) := by
  refine ⟨?_, ?_, ?_⟩
  · unfold classifyFamily classifyLower at h
    split_ifs at h
    simp_all
  · intro msgs
    rw [dispatch_classify, h]
    rfl
  · intro msgs
    unfold formatSimpleChat
    have hmap : msgs.map (simpleChatLine false) = msgs.map simpleChatSpecLine := by
      apply List.map_congr_left
      intro m _
      unfold simpleChatLine simpleChatSpecLine
      simp only [Bool.not_false, Bool.true_and, decide_eq_true_eq]
    rw [hmap]

/-- Concrete instance for C8: "google-gemini" classifies as SimpleChat with
flag false and dispatch agrees with the flag-false rendering. -/
theorem c8_simplechat_witness :
    (false = strIncl (lowerS (chars "google-gemini")) (chars "openai"))
    ∧ formatPromptForModel [⟨chars "system", chars "S"⟩] (chars "google-gemini")
        = formatSimpleChat [⟨chars "system", chars "S"⟩] false := by
  have h := c8_simplechat (chars "google-gemini") false (by decide)
  exact ⟨h.1, h.2.1 [⟨chars "system", chars "S"⟩]⟩

/-! ### Claims C1 and C2 — pre-inference error handling -/

/-- Counterexample to C1 as stated: a request body that is not parseable
JSON is answered with HTTP status 500, not 400 — the `JSON.parse` exception
propagates to the generic `catch` (source lines 333–336), which writes a
500 response.  The claim's "responds with HTTP status 400" is therefore
false for the Malformed-Request case. -/
theorem c1_malformed_is_500 :
    ¬ ((handleChatBody (.malformed (chars "Unexpected end of JSON input"))
        [] [] 0).status = 400)
    ∧ (handleChatBody (.malformed (chars "Unexpected end of JSON input"))
        [] [] 0).status = 500 := by
  constructor
  · intro h
    exact absurd h (by decide)
  · rfl

/-- C1 as amended: every pre-inference failure produces a JSON error body
and makes no inference call, but the statuses differ — a malformed body is
answered 500 (by the generic catch), while absent/non-array `messages` and
an empty formatted prompt are answered 400. -/
theorem c1_error_paths (e : Str) (d : RequestData) (frags : List Str)
    (result : Str) (created : Nat) :
    ((handleChatBody (.malformed e) frags result created).status = 500
      ∧ (handleChatBody (.malformed e) frags result created).response = .errJson e
      ∧ (handleChatBody (.malformed e) frags result created).inferenceCalls = [])
    ∧ (d.messages = .missing →
        (handleChatBody (.ok d) frags result created).status = 400
        ∧ (handleChatBody (.ok d) frags result created).response
            = .errJson (chars "Missing or invalid 'messages' in request body")
        ∧ (handleChatBody (.ok d) frags result created).inferenceCalls = [])
    ∧ (d.messages = .notArray →
        (handleChatBody (.ok d) frags result created).status = 400
        ∧ (handleChatBody (.ok d) frags result created).response
            = .errJson (chars "Missing or invalid 'messages' in request body")
        ∧ (handleChatBody (.ok d) frags result created).inferenceCalls = [])
    ∧ (∀ msgs : List Message, d.messages = .array msgs →
        formatPromptForModel msgs (modelOrDefault d.model) = [] →
        (handleChatBody (.ok d) frags result created).status = 400
        ∧ (handleChatBody (.ok d) frags result created).response
            = .errJson (chars "Missing 'content' in the last message")
        ∧ (handleChatBody (.ok d) frags result created).inferenceCalls = []) := by
  obtain ⟨mo, mf, sf⟩ := d
  refine ⟨⟨rfl, rfl, rfl⟩, ?_, ?_, ?_⟩
  · intro h
    cases h
    exact ⟨rfl, rfl, rfl⟩
  · intro h
    cases h
    exact ⟨rfl, rfl, rfl⟩
  · intro msgs h hp
    cases h
    simp [handleChatBody, hp]

/-- Concrete instance for C1 (amended): a request with no `messages` field
gets a 400 with no inference call, and a request with an empty `messages`
array under the default model formats to an empty prompt and also gets a
400 with no inference call. -/
theorem c1_error_paths_witness :
    (handleChatBody (.ok ⟨none, .missing, false⟩) [] [] 0).status = 400
    ∧ (handleChatBody (.ok ⟨none, .array [], false⟩) [] [] 0).status = 400
    ∧ (handleChatBody (.ok ⟨none, .array [], false⟩) [] [] 0).inferenceCalls = [] := by
  have h1 := (c1_error_paths [] ⟨none, .missing, false⟩ [] [] 0).2.1 rfl
  have h2 := (c1_error_paths [] ⟨none, .array [], false⟩ [] [] 0).2.2.2 [] rfl (by decide)
  exact ⟨h1.1, h2.1, h2.2.2⟩

/-- Counterexample to C2 as stated: a request whose `messages` field is
the empty array is not rejected during validation — the handler invokes the
Prompt Formatter on the empty sequence, and (for a model of the Llama3
family, whose formatter emits a nonempty scaffold) proceeds to call
inference with status 200. -/
theorem c2_empty_messages_reach_formatter :
    (handleChatBody (.ok ⟨some (chars "llama3"), .array [], false⟩)
        [] (chars "R") 0).formatterCalls = [([], chars "llama3")]
    ∧ (handleChatBody (.ok ⟨some (chars "llama3"), .array [], false⟩)
        [] (chars "R") 0).status = 200
    ∧ (handleChatBody (.ok ⟨some (chars "llama3"), .array [], false⟩)
        [] (chars "R") 0).inferenceCalls = [formatPromptForModel [] (chars "llama3")] := by
  refine ⟨?_, ?_, ?_⟩ <;> decide

/-- C2 as amended: validation rejects only an absent or non-array
`messages`; every array — the empty one included — is passed to the Prompt
Formatter, and the request is rejected (400, no inference) only afterwards,
when the resulting prompt is empty; a nonempty prompt proceeds to
inference with status 200. -/
theorem c2_array_always_formatted (d : RequestData) (msgs : List Message)
    (frags : List Str) (result : Str) (created : Nat)
    (h : d.messages = .array msgs) :
    (handleChatBody (.ok d) frags result created).formatterCalls
        = [(msgs, modelOrDefault d.model)]
    ∧ (formatPromptForModel msgs (modelOrDefault d.model) = [] →
        (handleChatBody (.ok d) frags result created).status = 400
        ∧ (handleChatBody (.ok d) frags result created).inferenceCalls = [])
    ∧ (formatPromptForModel msgs (modelOrDefault d.model) ≠ [] →
        (handleChatBody (.ok d) frags result created).status = 200
        ∧ (handleChatBody (.ok d) frags result created).inferenceCalls
            = [formatPromptForModel msgs (modelOrDefault d.model)]) := by
  obtain ⟨mo, mf, sf⟩ := d
  cases h
  refine ⟨?_, ?_, ?_⟩
  · simp only [handleChatBody]
    split_ifs <;> rfl
  · intro hp
    simp [handleChatBody, hp]
  · intro hp
    cases sf <;> simp [handleChatBody, hp]

/-- Concrete instance for C2 (amended): the empty array is formatted, and
with a Llama3-family model the nonempty prompt proceeds to inference. -/
theorem c2_array_always_formatted_witness :
    (handleChatBody (.ok ⟨some (chars "llama3"), .array [], false⟩)
        [] (chars "R") 0).formatterCalls = [([], chars "llama3")]
    ∧ (handleChatBody (.ok ⟨some (chars "llama3"), .array [], false⟩)
        [] (chars "R") 0).status = 200 := by
  have h := c2_array_always_formatted ⟨some (chars "llama3"), .array [], false⟩ []
    [] (chars "R") 0 rfl
  exact ⟨h.1, (h.2.2 (by decide)).1⟩

/-! ### Claim C5 — Llama2 formatter invariants -/

theorem suffix_append_left (s t l : Str) (h : s <:+ t) : s <:+ l ++ t :=
  h.trans (List.suffix_append l t)

/-- Ending classes the Llama2 prompt accumulator can be in: the bare start
marker, or a string ending in the system block tail, a user instruction
close, or an assistant turn tail. -/
def llama2GoodAcc (p : Str) : Prop :=
  p = chars "<s>" ∨ chars "\n\n" <:+ p ∨ chars "[/INST]" <:+ p ∨ chars "</s><s>" <:+ p

theorem llama2GoodAcc_seg (p : Str) (m : Message) (hp : llama2GoodAcc p) :
    llama2GoodAcc (p ++ llama2Seg m) := by
  unfold llama2Seg
  split_ifs with h1 h2
  · right; right; left
    have hsuf : chars "[/INST]" <:+ chars " [/INST]" := ⟨chars " ", by decide⟩
    exact suffix_append_left _ _ _ (suffix_append_left _ _ _ hsuf)
  · right; right; right
    have hsuf : chars "</s><s>" <:+ chars " </s><s>" := ⟨chars " ", by decide⟩
    exact suffix_append_left _ _ _ (suffix_append_left _ _ _ hsuf)
  · simpa using hp

theorem llama2GoodAcc_loop (msgs : List Message) (p : Str) (hp : llama2GoodAcc p) :
    llama2GoodAcc (promptLoop llama2Seg p msgs) := by
  induction msgs generalizing p with
  | nil => exact hp
  | cons m t ih => exact ih _ (llama2GoodAcc_seg p m hp)

theorem llama2Trim_of_assistant_tail (p : Str) (h : chars "</s><s>" <:+ p) :
    ∃ r, p = r ++ chars "</s><s>" ∧ llama2Trim p = r ++ chars "</s>" := by
  obtain ⟨r, hr⟩ := h
  refine ⟨r, hr.symm, ?_⟩
  unfold llama2Trim
  rw [if_pos]
  · rw [← hr, List.length_append]
    have hlen : r.length + (chars "</s><s>").length - 3 = r.length + 4 := by
      simp [chars]
    rw [hlen, List.take_append]
    rfl
  · rw [← hr]
    exact suffix_append_left _ _ _ ⟨chars "</s>", by decide⟩

theorem llama2Trim_no_dangling (p : Str) (hp : llama2GoodAcc p) :
    ¬ chars "<s>" <:+ llama2Trim p := by
  rcases hp with h | h | h | h
  · subst h; decide
  · have hno : ¬ chars "<s>" <:+ p := by
      intro hs
      rcases List.suffix_or_suffix_of_suffix hs h with hh | hh
      · exact absurd hh (by decide)
      · exact absurd hh (by decide)
    unfold llama2Trim
    rw [if_neg hno]
    exact hno
  · have hno : ¬ chars "<s>" <:+ p := by
      intro hs
      rcases List.suffix_or_suffix_of_suffix hs h with hh | hh
      · exact absurd hh (by decide)
      · exact absurd hh (by decide)
    unfold llama2Trim
    rw [if_neg hno]
    exact hno
  · obtain ⟨r, _, htrim⟩ := llama2Trim_of_assistant_tail p h
    rw [htrim]
    intro hs
    have h2 : chars "</s>" <:+ r ++ chars "</s>" := List.suffix_append _ _
    rcases List.suffix_or_suffix_of_suffix hs h2 with hh | hh
    · exact absurd hh (by decide)
    · exact absurd hh (by decide)

/-- C5: the Llama2 formatter output never ends with a dangling `<s>`
sequence-start marker, and when the message sequence begins with a system
message that message is rendered exactly once — as the single leading
`[INST] <<SYS>>\n…\n<</SYS>>\n\n` system block — while the remainder of the
output is computed from the other messages alone, so the leading system
content is never additionally rendered through the user-turn
`[INST] … [/INST]` wrapping. -/
theorem c5_llama2 (msgs : List Message) :
    ¬ chars "<s>" <:+ formatLlama2 msgs
    ∧ (∀ (m : Message) (rest : List Message), msgs = m :: rest →
        m.role = chars "system" →
        formatLlama2 msgs
          = llama2Trim ((chars "<s>" ++ sysBlock m.content)
              ++ (rest.map llama2Seg).flatten)) := by
  constructor
  · rcases msgs with _ | ⟨m, rest⟩
    · decide
    · show ¬ chars "<s>" <:+ formatLlama2 (m :: rest)
      simp only [formatLlama2]
      split_ifs with h
      · refine llama2Trim_no_dangling _ (llama2GoodAcc_loop rest _ ?_)
        right; left
        unfold sysBlock
        have hb : chars "\n\n" <:+ chars "\n<</SYS>>\n\n" := ⟨chars "\n<</SYS>>", by decide⟩
        exact suffix_append_left _ _ _ (suffix_append_left _ _ _ hb)
      · exact llama2Trim_no_dangling _ (llama2GoodAcc_loop (m :: rest) _ (Or.inl rfl))
  · intro m rest hmsgs hrole
    subst hmsgs
    simp only [formatLlama2]
    rw [if_pos hrole, promptLoop_eq]

/-- Concrete instance for C5: a system-led conversation decomposes into the
single system block plus the rendering of the remaining messages, and an
assistant-final conversation (whose raw prompt ends in `</s><s>`) does not
end with `<s>` after trimming. -/
theorem c5_llama2_witness :
    formatLlama2 [⟨chars "system", chars "S"⟩, ⟨chars "user", chars "U"⟩]
      = llama2Trim ((chars "<s>" ++ sysBlock (chars "S"))
          ++ ([(⟨chars "user", chars "U"⟩ : Message)].map llama2Seg).flatten)
    ∧ ¬ chars "<s>" <:+ formatLlama2 [⟨chars "assistant", chars "A"⟩] := by
  constructor
  · exact (c5_llama2 [⟨chars "system", chars "S"⟩, ⟨chars "user", chars "U"⟩]).2
      ⟨chars "system", chars "S"⟩ [⟨chars "user", chars "U"⟩] rfl rfl
  · exact (c5_llama2 [⟨chars "assistant", chars "A"⟩]).1
